import Mathlib

/-!
Shallow embedding of `src/scraper.py` (PULEP events scraper).

Modelling conventions:
* Python `dict[str, V]` becomes an association list `List (String × V)` built
  with `dictUpd`, which reproduces Python dict semantics: an assignment to an
  existing key updates its value in place (keeping its insertion position),
  otherwise the pair is appended.
* BeautifulSoup parsing is external: HTML inputs are modelled as the parsed
  DOM shape the source reads (tables with their header/body cells and text
  already extracted by `get_text`, select controls with their attributes).
* JSON scalar values are `JVal` (string, integer, null); a pandas DataFrame
  cell is a `Cell`: either a `JVal` or `nan` (the missing-value marker a
  DataFrame built from a list of dicts puts where a row lacks a key).
* Network effects are an `Oracle`: the grid endpoint (page number to result),
  the rendered listing page, and the per-position detail fetches. A failed
  request (transport error, non-2xx, non-object JSON body, unparseable
  `total`) is `.error msg`, the msg being `str(exc)`.
-/

namespace Pulep

/-! ## Python dict as an ordered association list -/

def dictUpd {α : Type} (d : List (String × α)) (k : String) (v : α) : List (String × α) :=
  if (d.find? (fun p => p.1 == k)).isSome then
    d.map (fun p => if p.1 == k then (k, v) else p)
  else
    d ++ [(k, v)]

def dictGet {α : Type} (d : List (String × α)) (k : String) : Option α :=
  (d.find? (fun p => p.1 == k)).map (fun p => p.2)

def dictHas {α : Type} (d : List (String × α)) (k : String) : Bool :=
  (d.find? (fun p => p.1 == k)).isSome

/-! ## Python string helpers, written with structural recursion so the kernel
can evaluate them on concrete inputs -/

/-- Python `s.strip()`: drop leading and trailing whitespace. -/
def pyStrip (s : String) : String :=
  ⟨((s.data.dropWhile Char.isWhitespace).reverse.dropWhile Char.isWhitespace).reverse⟩

/-- Python `s.rstrip(":")`: drop every trailing colon. -/
def rstripColon (s : String) : String :=
  ⟨(s.data.reverse.dropWhile (fun c => c == ':')).reverse⟩

/-- Substring test on character lists (Python `pat in hay`). -/
def hasSubList (pat : List Char) : List Char → Bool
  | [] => pat.isEmpty
  | c :: rest => pat.isPrefixOf (c :: rest) || hasSubList pat rest

/-- Python `pat in s.lower()` for an ASCII pattern. -/
def lowerHasSub (s : String) (pat : String) : Bool :=
  hasSubList pat.data (s.data.map Char.toLower)

/-! ## JSON values and DataFrame cells -/

inductive JVal where
  | s (v : String)
  | n (v : Int)
  | jnull
deriving DecidableEq, Repr

inductive Cell where
  | val (v : JVal)
  | nan
deriving DecidableEq, Repr

/-- Python truthiness of a DataFrame cell (`if u:` in the links filter).
Note `float("nan")` is truthy in Python. -/
def cellTruthy : Cell → Bool
  | .val (.s v) => v ≠ ""
  | .val (.n v) => v ≠ 0
  | .val .jnull => false
  | .nan => true

abbrev Row := List (String × JVal)
abbrev SRow := List (String × Cell)
abbrev DRec := List (String × Cell)

/-! ## URL constants and `_build_detail_url` -/

def BASE_URL : String := "https://pulepapp.mincultura.gov.co"

def EVENT_DETAIL_STEM : String := "/InformesPublicos/EventoFichap/"

/-- Model of `urljoin(BASE_URL, rel)` for the inputs the scraper produces:
an absolute URL is kept, an absolute path is resolved against the base. -/
def urljoinBase (rel : String) : String :=
  if ("http".data.isPrefixOf rel.data) then rel else BASE_URL ++ rel

/-- `_build_detail_url(evento_id)`: `None` gives the empty string; any other
cell is interpolated into the fixed template with Python `str()` rendering
(a missing cell is the float `nan`, whose rendering is "nan"). -/
def build_detail_url : Cell → String
  | .val .jnull => ""
  | .val (.s v) => BASE_URL ++ EVENT_DETAIL_STEM ++ v
  | .val (.n v) => BASE_URL ++ EVENT_DETAIL_STEM ++ toString v
  | .nan => BASE_URL ++ EVENT_DETAIL_STEM ++ "nan"

/-! ## `extract_filter_options` -/

/-- An `<option>` element: raw `value` attribute (`none` when absent) and its
`get_text(strip=True)` label. -/
structure SOption where
  value : Option String
  label : String
deriving DecidableEq, Repr

/-- A `<select>` element of the filter form. -/
structure SelectE where
  nameAttr : Option String
  idAttr : Option String
  options : List SOption
deriving DecidableEq, Repr

/-- The listing page as seen by `extract_filter_options`: the selects of the
first `<form>`, or `none` when the page has no form. -/
structure FilterDoc where
  form : Option (List SelectE)
deriving DecidableEq, Repr

/-- Python `a or b` on optional strings: an empty string is falsy. -/
def pyOrStr : Option String → Option String → Option String
  | some s, b => if s ≠ "" then some s else b
  | none, b => b

/-- `select.get("name") or select.get("id")`. -/
def selectName (sel : SelectE) : Option String :=
  pyOrStr sel.nameAttr sel.idAttr

/-- One iteration of the option loop:
`value = (option.get("value") or "").strip()`, then
`if value or label: options[label or value] = value`. -/
def optionStep (d : List (String × String)) (o : SOption) : List (String × String) :=
  if pyStrip (o.value.getD "") ≠ "" ∨ o.label ≠ "" then
    dictUpd d (if o.label ≠ "" then o.label else pyStrip (o.value.getD ""))
      (pyStrip (o.value.getD ""))
  else d

def extract_filter_options (doc : FilterDoc) : List (String × List (String × String)) :=
  match doc.form with
  | none => []
  | some selects =>
    selects.foldl
      (fun fs sel =>
        match selectName sel with
        | none => fs
        | some nm =>
          if nm = "" then fs
          else dictUpd fs nm (sel.options.foldl optionStep []))
      []

/-! ## Listing-page tables: `_find_results_table` and `parse_events_table` -/

/-- One `<tr>` of the results table body: its `<td>` texts and the `href` of
its first `<a href>` descendant, when one exists. -/
structure HRow where
  tds : List String
  href : Option String
deriving DecidableEq, Repr

/-- One `<table>`: all its `<th>` texts in document order, the `<thead>`
section's `<th>` texts when a thead exists, and the `<tr>` rows of its
`<tbody>` (or of the whole table when there is no tbody). -/
structure HTable where
  ths : List String
  thead : Option (List String)
  trs : List HRow
deriving DecidableEq, Repr

/-- The listing page as seen by the table extractor. -/
structure HtmlDoc where
  tables : List HTable
deriving DecidableEq, Repr

/-- `any("evento" in h for h in headers)` with headers lowercased. -/
def headerMentionsEvento (t : HTable) : Bool :=
  t.ths.any (fun h => lowerHasSub h "evento")

/-- `_find_results_table`: the first table whose headers mention "evento",
else the document's first table, else `none` when there are no tables. -/
def find_results_table (doc : HtmlDoc) : Option HTable :=
  match doc.tables.find? headerMentionsEvento with
  | some tb => some tb
  | none => doc.tables.head?

/-- Header list of the chosen table: the thead's `<th>` texts when a thead
exists, else every `<th>` of the table. -/
def tableHeaders (t : HTable) : List String :=
  match t.thead with
  | some l => l
  | none => t.ths

/-- Column name for data cell `idx`: `headers[idx]` when in range, else
`col_{idx+1}`. -/
def colName (headers : List String) (idx : Nat) : String :=
  match headers.get? idx with
  | some h => h
  | none => "col_" ++ toString (idx + 1)

/-- Build one row dict: enumerate the `<td>` texts into named columns, then
set `detalle_url` from the row's first link (empty string without one). -/
def rowDict (headers : List String) (tr : HRow) : List (String × String) :=
  let base := (tr.tds.enum).foldl (fun d p => dictUpd d (colName headers p.1) p.2) []
  dictUpd base "detalle_url"
    (match tr.href with
     | some h => urljoinBase h
     | none => "")

/-- The row dicts of one table: rows without any `<td>` are skipped. -/
def tableRows (t : HTable) : List (List (String × String)) :=
  (t.trs.filter (fun tr => ¬ tr.tds.isEmpty)).map (rowDict (tableHeaders t))

/-- `parse_events_table`: the row dicts that populate the returned DataFrame
(empty when the document has no tables). -/
def parse_events_table (doc : HtmlDoc) : List (List (String × String)) :=
  match find_results_table doc with
  | none => []
  | some t => tableRows t

/-! ## `parse_event_detail` -/

/-- A label-like element's next sibling node: `raw` is `str(node)` and
`text` the `get_text(" ", strip=True)` rendering of `str(node).strip()`
re-parsed as markup. -/
structure DNode where
  raw : String
  text : String
deriving DecidableEq, Repr

/-- A `<label>`, `<strong>` or `<b>` element: its `get_text` text and its
next sibling, when one exists. -/
structure DLabel where
  text : String
  sib : Option DNode
deriving DecidableEq, Repr

/-- A detail page as seen by `parse_event_detail`: every table as its rows of
`<th>`/`<td>` cell texts, every label-like element in document order, and the
page's full plain text. -/
structure DetailDoc where
  tables : List (List (List String))
  labels : List DLabel
  fullText : String
deriving DecidableEq, Repr

/-- One `<tr>` of the table strategy: a row with at least two cells whose
first cell's text is non-empty assigns `data[key] = value`. -/
def detailTableStep (d : List (String × String)) (cells : List String) :
    List (String × String) :=
  match cells with
  | k :: v :: _ => if k ≠ "" then dictUpd d k v else d
  | _ => d

/-- The table strategy: both loops (`for table ...: for tr ...`) in order. -/
def detailTablesPass (doc : DetailDoc) : List (String × String) :=
  doc.tables.foldl (fun d trs => trs.foldl detailTableStep d) []

/-- One label-like element of the label strategy: key is the text with
trailing colons stripped; a pair is added only when the key is non-empty,
`str(next_sibling).strip()` is non-empty and the key is not already known. -/
def detailLabelStep (d : List (String × String)) (lb : DLabel) :
    List (String × String) :=
  if rstripColon lb.text = "" then d
  else
    match lb.sib with
    | none => d
    | some nd =>
      if pyStrip nd.raw ≠ "" ∧ ¬ dictHas d (rstripColon lb.text) then
        dictUpd d (rstripColon lb.text) nd.text
      else d

def parse_event_detail (doc : DetailDoc) : List (String × String) :=
  if (doc.labels.foldl detailLabelStep (detailTablesPass doc)).isEmpty then
    [("contenido", doc.fullText)]
  else doc.labels.foldl detailLabelStep (detailTablesPass doc)

/-! ## The pandas DataFrame of the grid path -/

/-- Column set of `pd.DataFrame(rows)` built from a list of dicts: the union
of the rows' keys in first-seen order. -/
def dfColumns (rows : List Row) : List String :=
  rows.foldl
    (fun cols r => r.foldl (fun cs p => if cs.contains p.1 then cs else cs ++ [p.1]) cols)
    []

/-- The cell of row `r` at column `c`: the row's value, or `nan` when the row
lacks the key. -/
def dfCell (r : Row) (c : String) : Cell :=
  match dictGet r c with
  | some v => Cell.val v
  | none => Cell.nan

/-- The rectangular DataFrame: every row materialized over the full column
set, missing keys as `nan`. -/
def materialize (rows : List Row) : List SRow :=
  (rows.map (fun r => (dfColumns rows).map (fun c => (c, dfCell r c))))

/-- The grid-path summary after the `detalle_url` normalization:
`if not df.empty and "EventoId" in df.columns: df["detalle_url"] =
df["EventoId"].map(_build_detail_url)` (the whole column is overwritten,
`map` is applied to `nan` cells too), `elif "detalle_url" not in df.columns:
df["detalle_url"] = ""`. -/
def gridSummary (rowsData : List Row) : List SRow :=
  let cols := dfColumns rowsData
  let df := materialize rowsData
  if ¬ rowsData.isEmpty ∧ cols.contains "EventoId" then
    df.map (fun r =>
      dictUpd r "detalle_url"
        (Cell.val (JVal.s (build_detail_url ((dictGet r "EventoId").getD Cell.nan)))))
  else if ¬ cols.contains "detalle_url" then
    df.map (fun r => dictUpd r "detalle_url" (Cell.val (JVal.s "")))
  else df

/-- The fallback-path summary: the DataFrame built from the row dicts of
`parse_events_table`. -/
def htmlSummary (doc : HtmlDoc) : List SRow :=
  materialize (parse_events_table doc |>.map (fun r => r.map (fun p => (p.1, JVal.s p.2))))

/-- `basic_df.get("detalle_url", empty).tolist()`: the column's cells when
the column exists, else the empty list. A summary is always rectangular, so
the column exists exactly when the first row has it. -/
def detalleColumn (summary : List SRow) : List Cell :=
  match summary with
  | [] => []
  | r :: _ =>
    if dictHas r "detalle_url" then
      summary.map (fun row => (dictGet row "detalle_url").getD Cell.nan)
    else []

/-- Python `links[:m]` for an arbitrary integer bound. -/
def pySliceTo {α : Type} (l : List α) (m : Int) : List α :=
  if 0 ≤ m then l.take m.toNat else l.take (l.length - min l.length (-m).toNat)

/-- The detail links: the truthy `detalle_url` cells in row order, truncated
by `links[:max_details]` when `max_details is not None`. -/
def selectedLinks (basic : List SRow) (maxDetails : Option Int) : List Cell :=
  match maxDetails with
  | none => (detalleColumn basic).filter cellTruthy
  | some m => pySliceTo ((detalleColumn basic).filter cellTruthy) m

/-! ## The network oracle and `scrape_events` -/

/-- `_fetch_events_grid_page`'s successful result: `total` is
`int(resp.get("total") or 0)` and `rows` is `list(resp.get("rows") or [])`. -/
structure GridResponse where
  total : Int
  rows : List Row
deriving DecidableEq, Repr

/-- One invocation's network behaviour (session and filters are fixed for the
whole invocation, so they are baked into the oracle):
`fetchGrid page` is `_fetch_events_grid_page(session, filters, page, 100)`
(`.error msg` for a transport failure, a non-2xx status, a non-object JSON
body, or an unparseable `total` field); `listingHtml` is
`_get_events_page(session, filters)`; `fetchDetail i url` is the detail GET
issued at 1-based position `i` for link value `url`. -/
structure Oracle where
  fetchGrid : Nat → Except String GridResponse
  listingHtml : Except String HtmlDoc
  fetchDetail : Nat → Cell → Except String DetailDoc

/-- The pagination loop `for current_page in range(2, total_pages + 1)`:
fetch `count` pages starting at `start`, appending each page's rows; the
first failure aborts the whole accumulation. -/
def fetchPages (fetchGrid : Nat → Except String GridResponse) :
    Nat → Nat → List Row → Except String (List Row)
  | _, 0, acc => .ok acc
  | start, count + 1, acc =>
    match fetchGrid start with
    | .error e => .error e
    | .ok pg => fetchPages fetchGrid (start + 1) count (acc ++ pg.rows)

/-- The grid path of `scrape_events`: page 1, then pages 2..total. -/
def runGrid (fetchGrid : Nat → Except String GridResponse) :
    Except String (List Row) :=
  match fetchGrid 1 with
  | .error e => .error e
  | .ok first => fetchPages fetchGrid 2 (first.total - 1).toNat first.rows

/-- One iteration of the enrichment loop at 1-based index `idx`: on success
the parsed fields plus `detalle_url` and `indice`; on a request failure the
error record for the same position. -/
def enrichOne (fetchDetail : Nat → Cell → Except String DetailDoc)
    (idx : Nat) (url : Cell) : DRec :=
  match fetchDetail idx url with
  | .ok doc =>
    dictUpd
      (dictUpd ((parse_event_detail doc).map (fun p => (p.1, Cell.val (JVal.s p.2))))
        "detalle_url" url)
      "indice" (Cell.val (JVal.s (toString idx)))
  | .error e =>
    [("detalle_url", url), ("error", Cell.val (JVal.s e)),
     ("indice", Cell.val (JVal.s (toString idx)))]

/-- `for idx, url in enumerate(links, start=1)`. -/
def enrichFrom (fetchDetail : Nat → Cell → Except String DetailDoc) :
    Nat → List Cell → List DRec
  | _, [] => []
  | idx, url :: rest => enrichOne fetchDetail idx url :: enrichFrom fetchDetail (idx + 1) rest

def enrich (fetchDetail : Nat → Cell → Except String DetailDoc)
    (links : List Cell) : List DRec :=
  enrichFrom fetchDetail 1 links

/-- The tail of `scrape_events` shared by both summary paths: skip the
details when they were not requested or the summary DataFrame is empty, else
enrich the selected links. -/
def finishScrape (o : Oracle) (basic : List SRow) (includeDetails : Bool)
    (maxDetails : Option Int) : Except String (List SRow × List DRec) :=
  if ¬ includeDetails ∨ basic.isEmpty then .ok (basic, [])
  else .ok (basic, enrich o.fetchDetail (selectedLinks basic maxDetails))

/-- `scrape_events(filters, include_details, max_details)`: the grid path,
with the whole accumulation replaced by the parsed listing page when any part
of it fails (the `try`/`except` wraps every page request); a failure of the
fallback request itself propagates to the caller. -/
def scrape_events (o : Oracle) (includeDetails : Bool) (maxDetails : Option Int) :
    Except String (List SRow × List DRec) :=
  match runGrid o.fetchGrid with
  | .ok rowsData => finishScrape o (gridSummary rowsData) includeDetails maxDetails
  | .error _ =>
    match o.listingHtml with
    | .ok doc => finishScrape o (htmlSummary doc) includeDetails maxDetails
    | .error e => .error e

/-! ## Specification-side definitions, stated from the spec's words and
compared with the source embedding by the theorems below -/

/-- The pair one table row contributes to the detail table strategy: the
first two cells when there are at least two and the key is non-empty. -/
def rowPair (cells : List String) : Option (String × String) :=
  match cells with
  | k :: v :: _ => if k ≠ "" then some (k, v) else none
  | _ => none

/-- Every key/value pair the table strategy yields, in document order. -/
def tablePairs (doc : DetailDoc) : List (String × String) :=
  doc.tables.flatten.filterMap rowPair

/-- The pair one `<option>` contributes per the amended reading of the spec:
skipped when both the stripped value and the label are empty; keyed by the
label, falling back to the value when the label is empty; always mapping to
the (possibly empty) value. -/
def optionPair (o : SOption) : Option (String × String) :=
  if pyStrip (o.value.getD "") = "" ∧ o.label = "" then none
  else some ((if o.label ≠ "" then o.label else pyStrip (o.value.getD "")),
    pyStrip (o.value.getD ""))

/-- `extract_filter_options` as the amended spec words it: empty mapping
without a form; per named select, the dict of contributed option pairs. -/
def extract_filter_options_spec (doc : FilterDoc) :
    List (String × List (String × String)) :=
  match doc.form with
  | none => []
  | some selects =>
    selects.foldl
      (fun fs sel =>
        match selectName sel with
        | none => fs
        | some nm =>
          if nm = "" then fs
          else
            dictUpd fs nm
              ((sel.options.filterMap optionPair).foldl (fun d p => dictUpd d p.1 p.2) []))
      []

/-! ## Concrete documents and oracles used by the witnesses and
counterexamples -/

def url5 : String := "https://pulepapp.mincultura.gov.co/InformesPublicos/EventoFichap/5"

def url7 : String := "https://pulepapp.mincultura.gov.co/InformesPublicos/EventoFichap/7"

def url8 : String := "https://pulepapp.mincultura.gov.co/InformesPublicos/EventoFichap/8"

def urlNan : String := "https://pulepapp.mincultura.gov.co/InformesPublicos/EventoFichap/nan"

/-- A listing page with one results table, for fallback runs. -/
def w1Doc : HtmlDoc := ⟨[⟨["Evento"], none, [⟨["Feria"], none⟩]⟩]⟩

/-- Grid page 1 succeeds announcing 2 pages, page 2 times out. -/
def w1O : Oracle :=
  { fetchGrid := fun p => if p = 1 then .ok ⟨2, [[("EventoId", JVal.s "5")]]⟩ else .error "timeout"
    listingHtml := .ok w1Doc
    fetchDetail := fun _ _ => .error "x" }

/-- Grid succeeds with a single row; the single detail fetch fails. -/
def c2O : Oracle :=
  { fetchGrid := fun _ => .ok ⟨1, [[("EventoId", JVal.s "5")]]⟩
    listingHtml := .error "unused"
    fetchDetail := fun _ _ => .error "x" }

def c2S : List SRow :=
  [[("EventoId", Cell.val (JVal.s "5")), ("detalle_url", Cell.val (JVal.s url5))]]

def c2D : List DRec :=
  [[("detalle_url", Cell.val (JVal.s url5)), ("error", Cell.val (JVal.s "x")),
    ("indice", Cell.val (JVal.s "1"))]]

/-- Grid rows where some rows carry `EventoId` and one does not but already
has a `detalle_url`. -/
def c5Rows : List Row :=
  [[("EventoId", JVal.s "5")], [("Nombre", JVal.s "B"), ("detalle_url", JVal.s "http://x")]]

def c5O : Oracle :=
  { fetchGrid := fun _ => .ok ⟨1, c5Rows⟩
    listingHtml := .error "unused"
    fetchDetail := fun _ _ => .error "x" }

def c5S : List SRow :=
  [[("EventoId", Cell.val (JVal.s "5")), ("Nombre", Cell.nan),
    ("detalle_url", Cell.val (JVal.s url5))],
   [("EventoId", Cell.nan), ("Nombre", Cell.val (JVal.s "B")),
    ("detalle_url", Cell.val (JVal.s urlNan))]]

/-- A detail page with one table pair. -/
def w3Doc : DetailDoc := ⟨[[["Campo", "Valor"]]], [], "texto"⟩

/-- Two grid rows with ids 7 and 8; detail 1 parses, detail 2 fails. -/
def w3O : Oracle :=
  { fetchGrid := fun _ => .ok ⟨1, [[("EventoId", JVal.s "7")], [("EventoId", JVal.s "8")]]⟩
    listingHtml := .error "unused"
    fetchDetail := fun i _ => if i = 1 then .ok w3Doc else .error "timeout2" }

def w3S : List SRow :=
  [[("EventoId", Cell.val (JVal.s "7")), ("detalle_url", Cell.val (JVal.s url7))],
   [("EventoId", Cell.val (JVal.s "8")), ("detalle_url", Cell.val (JVal.s url8))]]

def w3D : List DRec :=
  [[("Campo", Cell.val (JVal.s "Valor")), ("detalle_url", Cell.val (JVal.s url7)),
    ("indice", Cell.val (JVal.s "1"))],
   [("detalle_url", Cell.val (JVal.s url8)), ("error", Cell.val (JVal.s "timeout2")),
    ("indice", Cell.val (JVal.s "2"))]]

/-- A detail page where the table strategy and the label strategy collide on
the key "Campo". -/
def c6Doc : DetailDoc :=
  ⟨[[["Campo", "v1"]]], [⟨"Campo:", some ⟨" v2 ", "v2"⟩⟩], "texto"⟩

/-- A filter form whose single option has a label but an empty value. -/
def c7Doc : FilterDoc := ⟨some [⟨some "f", none, [⟨some "", "X"⟩]⟩]⟩

/-! ## Decidable equality of results, for evaluating the model on concrete
oracles -/

instance {ε α : Type} [DecidableEq ε] [DecidableEq α] : DecidableEq (Except ε α) := fun a b =>
  match a, b with
  | .ok x, .ok y =>
    if h : x = y then .isTrue (by rw [h]) else .isFalse (fun c => by cases c; exact h rfl)
  | .error x, .error y =>
    if h : x = y then .isTrue (by rw [h]) else .isFalse (fun c => by cases c; exact h rfl)
  | .ok _, .error _ => .isFalse (fun c => by cases c)
  | .error _, .ok _ => .isFalse (fun c => by cases c)

/-! ## Lemmas about the dict model -/

theorem find?_map_upd {α : Type} (d : List (String × α)) (k : String) (v : α)
    (h : (d.find? (fun p => p.1 == k)).isSome) :
    ((d.map (fun p => if p.1 == k then (k, v) else p)).find? (fun p => p.1 == k)) = some (k, v) := by
  induction d with
  | nil => simp at h
  | cons p d ih =>
    by_cases hp : (p.1 == k) = true
    · simp only [List.map_cons, if_pos hp, List.find?_cons]
      simp
    · have hp2 : (p.1 == k) = false := by simpa using hp
      simp only [List.find?_cons, hp2] at h
      simp only [List.map_cons, List.find?_cons, hp2]
      simp only [Bool.false_eq_true, if_false]
      simp only [hp2]
      exact ih h

theorem dictGet_dictUpd_self {α : Type} (d : List (String × α)) (k : String) (v : α) :
    dictGet (dictUpd d k v) k = some v := by
  unfold dictUpd
  by_cases h : (d.find? (fun p => p.1 == k)).isSome
  · rw [if_pos h]
    unfold dictGet
    rw [find?_map_upd d k v h]
    rfl
  · rw [if_neg h]
    unfold dictGet
    rw [List.find?_append]
    rw [Option.not_isSome_iff_eq_none] at h
    rw [h, Option.none_or]
    simp [List.find?]

theorem find?_map_upd_other {α : Type} (d : List (String × α)) (k q : String) (v : α)
    (hkq : k ≠ q) :
    ((d.map (fun p => if p.1 == q then (q, v) else p)).find? (fun p => p.1 == k)) =
      d.find? (fun p => p.1 == k) := by
  have hqk : (q == k) = false := by
    simp only [beq_eq_false_iff_ne, ne_eq]
    exact fun h => hkq h.symm
  induction d with
  | nil => rfl
  | cons p d ih =>
    by_cases hp : (p.1 == q) = true
    · have hpq : p.1 = q := by simpa using hp
      have h2 : (p.1 == k) = false := by rw [hpq]; exact hqk
      simp only [List.map_cons, if_pos hp, List.find?_cons, hqk, h2]
      exact ih
    · simp only [List.map_cons, if_neg hp, List.find?_cons]
      cases hk : (p.1 == k) with
      | true => rfl
      | false => exact ih

theorem dictGet_dictUpd_other {α : Type} (d : List (String × α)) (k q : String) (v : α)
    (hkq : k ≠ q) :
    dictGet (dictUpd d q v) k = dictGet d k := by
  unfold dictUpd
  by_cases h : (d.find? (fun p => p.1 == q)).isSome
  · rw [if_pos h]
    unfold dictGet
    rw [find?_map_upd_other d k q v hkq]
  · rw [if_neg h]
    unfold dictGet
    rw [List.find?_append]
    have hqk : (q == k) = false := by
      simp only [beq_eq_false_iff_ne, ne_eq]
      exact fun hh => hkq hh.symm
    have hnone : ([(q, v)].find? (fun p => p.1 == k)) = none := by
      simp [List.find?, hqk]
    rw [hnone, Option.or_none]

theorem dictHas_eq_isSome_dictGet {α : Type} (d : List (String × α)) (k : String) :
    dictHas d k = (dictGet d k).isSome := by
  unfold dictHas dictGet
  cases d.find? (fun p => p.1 == k) <;> rfl

theorem dictHas_dictUpd {α : Type} (d : List (String × α)) (k q : String) (v : α)
    (h : dictHas d k = true) : dictHas (dictUpd d q v) k = true := by
  rw [dictHas_eq_isSome_dictGet] at h ⊢
  by_cases hkq : k = q
  · subst hkq; rw [dictGet_dictUpd_self]; rfl
  · rw [dictGet_dictUpd_other d k q v hkq]; exact h

/-- Folding dict assignments: the value at `k` is the one of the last pair
keyed `k`, falling back to the initial dict. -/
theorem dictGet_foldl_upd {α : Type} (ps : List (String × α)) (d0 : List (String × α))
    (k : String) :
    dictGet (ps.foldl (fun d p => dictUpd d p.1 p.2) d0) k =
      ((ps.reverse.find? (fun p => p.1 == k)).map Prod.snd).or (dictGet d0 k) := by
  induction ps using List.reverseRecOn generalizing d0 with
  | nil => simp
  | append_singleton ps p ih =>
    rw [List.foldl_append]
    simp only [List.foldl_cons, List.foldl_nil]
    rw [List.reverse_append]
    simp only [List.reverse_cons, List.reverse_nil, List.nil_append, List.singleton_append]
    by_cases hp : (p.1 == k) = true
    · have hk : k = p.1 := (beq_iff_eq.mp hp).symm
      subst hk
      simp [List.find?_cons, dictGet_dictUpd_self]
    · have hk : k ≠ p.1 := fun hh => hp (beq_iff_eq.mpr hh.symm)
      have hp2 : (p.1 == k) = false := by simpa using hp
      rw [List.find?_cons]
      simp only [hp2]
      rw [dictGet_dictUpd_other _ k p.1 p.2 hk, ih]

/-! ## Lemmas about `parse_event_detail` -/

theorem detailTableStep_eq (d : List (String × String)) (cells : List String) :
    detailTableStep d cells =
      match rowPair cells with
      | some p => dictUpd d p.1 p.2
      | none => d := by
  cases cells with
  | nil => rfl
  | cons k rest =>
    cases rest with
    | nil => rfl
    | cons v r =>
      unfold detailTableStep rowPair
      by_cases hk : k = "" <;> simp [hk]

theorem foldl_detailTableStep_eq (trs : List (List String)) (d0 : List (String × String)) :
    trs.foldl detailTableStep d0 =
      (trs.filterMap rowPair).foldl (fun d p => dictUpd d p.1 p.2) d0 := by
  induction trs generalizing d0 with
  | nil => rfl
  | cons c trs ih =>
    rw [List.foldl_cons, detailTableStep_eq, List.filterMap_cons]
    cases hr : rowPair c with
    | none => exact ih d0
    | some p => rw [List.foldl_cons]; exact ih (dictUpd d0 p.1 p.2)

theorem detailTablesPass_eq (doc : DetailDoc) :
    detailTablesPass doc = (tablePairs doc).foldl (fun d p => dictUpd d p.1 p.2) [] := by
  unfold detailTablesPass tablePairs
  rw [← List.foldl_flatten]
  exact foldl_detailTableStep_eq _ []

theorem detailLabelStep_preserves (d : List (String × String)) (lb : DLabel) (k : String)
    (h : dictHas d k = true) :
    dictGet (detailLabelStep d lb) k = dictGet d k ∧
      dictHas (detailLabelStep d lb) k = true := by
  by_cases hkey : rstripColon lb.text = ""
  · simp only [detailLabelStep, if_pos hkey]; exact ⟨trivial, h⟩
  · cases hsib : lb.sib with
    | none => simp only [detailLabelStep, if_neg hkey, hsib]; exact ⟨trivial, h⟩
    | some nd =>
      by_cases hc : pyStrip nd.raw ≠ "" ∧ ¬ dictHas d (rstripColon lb.text) = true
      · have hk2 : k ≠ rstripColon lb.text := fun he => hc.2 (he ▸ h)
        simp only [detailLabelStep, if_neg hkey, hsib, if_pos hc]
        exact ⟨dictGet_dictUpd_other _ _ _ _ hk2, dictHas_dictUpd _ _ _ _ h⟩
      · simp only [detailLabelStep, if_neg hkey, hsib, if_neg hc]
        exact ⟨trivial, h⟩

theorem foldl_labels_preserves (labels : List DLabel) (d : List (String × String))
    (k : String) (h : dictHas d k = true) :
    dictGet (labels.foldl detailLabelStep d) k = dictGet d k ∧
      dictHas (labels.foldl detailLabelStep d) k = true := by
  induction labels generalizing d with
  | nil => exact ⟨rfl, h⟩
  | cons lb rest ih =>
    rw [List.foldl_cons]
    have h1 := detailLabelStep_preserves d lb k h
    have h2 := ih (detailLabelStep d lb) h1.2
    exact ⟨h2.1.trans h1.1, h2.2⟩

/-! ## Claim theorems about the detail-page extractor -/

/-- C10: within `parse_event_detail`'s table strategy, the value stored for a
key is the one of the last table row anywhere in the document that yields
that key, and rows with an empty first cell (or fewer than two cells)
contribute no pair at all: the pass is fully determined by `tablePairs`,
which drops them, and a reversed first-match gives the last occurrence. -/
theorem detail_table_last_row_wins (doc : DetailDoc) (k : String) :
    dictGet (detailTablesPass doc) k =
      ((tablePairs doc).reverse.find? (fun p => p.1 == k)).map Prod.snd := by
  rw [detailTablesPass_eq, dictGet_foldl_upd]
  have hnil : dictGet ([] : List (String × String)) k = none := rfl
  rw [hnil, Option.or_none]

/-- C6: whenever the table strategy captured a key, the final result of
`parse_event_detail` carries the table strategy's value for it — the label
strategy never overwrites an existing key and the text fallback never fires
on a non-empty dict. -/
theorem table_strategy_precedence (doc : DetailDoc) (k : String)
    (h : dictHas (detailTablesPass doc) k = true) :
    dictGet (parse_event_detail doc) k = dictGet (detailTablesPass doc) k := by
  have hp := foldl_labels_preserves doc.labels (detailTablesPass doc) k h
  have hne : (doc.labels.foldl detailLabelStep (detailTablesPass doc)).isEmpty = false := by
    cases hL : doc.labels.foldl detailLabelStep (detailTablesPass doc) with
    | nil => rw [hL] at hp; simp [dictHas, List.find?] at hp
    | cons a l => simp
  unfold parse_event_detail
  rw [hne]
  simp only [Bool.false_eq_true, if_false]
  exact hp.1

/-- C6 witness: a concrete page where both strategies yield the key "Campo";
the table strategy's value "v1" is the one returned. -/
theorem table_strategy_precedence_witness :
    dictHas (detailTablesPass c6Doc) "Campo" = true ∧
      dictGet (parse_event_detail c6Doc) "Campo" = dictGet (detailTablesPass c6Doc) "Campo" :=
  ⟨by decide, table_strategy_precedence c6Doc "Campo" (by decide)⟩

/-- C4: `parse_event_detail` always returns a non-empty mapping, and when
neither strategy yields a pair the result is the single fallback field
"contenido" holding the page's full plain text. -/
theorem parse_event_detail_nonempty (doc : DetailDoc) :
    parse_event_detail doc ≠ [] ∧
      (doc.labels.foldl detailLabelStep (detailTablesPass doc) = [] →
        parse_event_detail doc = [("contenido", doc.fullText)]) := by
  unfold parse_event_detail
  constructor
  · by_cases h : (doc.labels.foldl detailLabelStep (detailTablesPass doc)).isEmpty = true
    · rw [if_pos h]; exact List.cons_ne_nil _ _
    · rw [if_neg h]; exact fun he => h (by simp [he])
  · intro h; rw [if_pos (by simp [h])]

/-! ## Claim theorem about the results-table chooser -/

/-- C8: `parse_events_table` parses the table `_find_results_table` chooses:
the first table whose (lowercased) header cells contain the substring
"evento"; when no table qualifies, the document's first table; and when the
document has no tables at all the result is empty rather than a failure. -/
theorem events_table_selection (doc : HtmlDoc) :
    (doc.tables = [] → parse_events_table doc = [])
    ∧ (∀ t, find_results_table doc = some t → parse_events_table doc = tableRows t)
    ∧ (∀ pre t post, doc.tables = pre ++ t :: post → headerMentionsEvento t = true →
        (∀ u ∈ pre, headerMentionsEvento u = false) → find_results_table doc = some t)
    ∧ ((∀ u ∈ doc.tables, headerMentionsEvento u = false) →
        find_results_table doc = doc.tables.head?) := by
  refine ⟨?_, ?_, ?_, ?_⟩
  · intro h
    simp [parse_events_table, find_results_table, h]
  · intro t ht
    unfold parse_events_table
    rw [ht]
  · intro pre t post hsplit hT hpre
    have hpn : pre.find? headerMentionsEvento = none :=
      List.find?_eq_none.mpr (fun x hx => by simp [hpre x hx])
    have hfind : doc.tables.find? headerMentionsEvento = some t := by
      rw [hsplit, List.find?_append, hpn, Option.none_or, List.find?_cons, hT]
    unfold find_results_table
    rw [hfind]
  · intro hall
    have hfind : doc.tables.find? headerMentionsEvento = none :=
      List.find?_eq_none.mpr (fun x hx => by simp [hall x hx])
    unfold find_results_table
    rw [hfind]

/-! ## Claim theorems about `extract_filter_options` -/

/-- C7 counterexample: an option with label "X" and an empty value is stored
as the pair ("X", "") — the label is never used as the value, contradicting
the claim's "using the label as the value when the value is empty". -/
theorem filter_options_empty_value_cex :
    extract_filter_options c7Doc = [("f", [("X", "")])] ∧
      ¬ extract_filter_options c7Doc = [("f", [("X", "X")])] := by
  exact ⟨by decide, by decide⟩

theorem optionStep_eq (d : List (String × String)) (o : SOption) :
    optionStep d o =
      match optionPair o with
      | some p => dictUpd d p.1 p.2
      | none => d := by
  unfold optionStep optionPair
  by_cases hv : pyStrip (o.value.getD "") = "" <;> by_cases hl : o.label = "" <;>
    simp [hv, hl]

theorem options_foldl_eq (opts : List SOption) (d0 : List (String × String)) :
    opts.foldl optionStep d0 =
      (opts.filterMap optionPair).foldl (fun d p => dictUpd d p.1 p.2) d0 := by
  induction opts generalizing d0 with
  | nil => rfl
  | cons o opts ih =>
    rw [List.foldl_cons, optionStep_eq, List.filterMap_cons]
    cases ho : optionPair o with
    | none => exact ih d0
    | some p => rw [List.foldl_cons]; exact ih (dictUpd d0 p.1 p.2)

/-- C7 as amended: `extract_filter_options` returns the empty mapping when no
form is present, and otherwise collects, per named select, the dict of
option pairs where the key falls back from label to value when the label is
empty, the stored value is always the (stripped) value attribute — also when
that value is empty — and options with both parts empty are dropped. -/
theorem extract_filter_options_amended (doc : FilterDoc) :
    (doc.form = none → extract_filter_options doc = []) ∧
      extract_filter_options doc = extract_filter_options_spec doc := by
  constructor
  · intro h
    unfold extract_filter_options
    rw [h]
  · unfold extract_filter_options extract_filter_options_spec
    cases doc.form with
    | none => rfl
    | some selects =>
      refine List.foldl_ext _ _ _ (fun fs sel _ => ?_)
      cases selectName sel with
      | none => rfl
      | some nm =>
        by_cases hnm : nm = ""
        · simp [hnm]
        · simp only [if_neg hnm]
          rw [options_foldl_eq]

/-! ## Lemmas about the orchestrator -/

theorem finishScrape_eq (o : Oracle) (b : List SRow) (i : Bool) (m : Option Int) :
    finishScrape o b i m =
      .ok (b, if ¬ i ∨ b.isEmpty then [] else enrich o.fetchDetail (selectedLinks b m)) := by
  unfold finishScrape
  by_cases h : ¬ i ∨ b.isEmpty = true
  · rw [if_pos h, if_pos h]
  · rw [if_neg h, if_neg h]

/-- Inversion of a successful `scrape_events` run: the summary came from the
grid path or from the fallback, and the detail table is the enrichment of the
selected links (or empty when skipped). -/
theorem scrape_events_ok_cases (o : Oracle) (i : Bool) (m : Option Int)
    (s : List SRow) (d : List DRec)
    (h : scrape_events o i m = .ok (s, d)) :
    ((∃ rows, runGrid o.fetchGrid = .ok rows ∧ s = gridSummary rows)
      ∨ (∃ e doc, runGrid o.fetchGrid = .error e ∧ o.listingHtml = .ok doc ∧
          s = htmlSummary doc))
    ∧ d = (if ¬ i ∨ s.isEmpty then [] else enrich o.fetchDetail (selectedLinks s m)) := by
  unfold scrape_events at h
  cases hg : runGrid o.fetchGrid with
  | ok rows =>
    simp only [hg] at h
    rw [finishScrape_eq] at h
    simp only [Except.ok.injEq, Prod.mk.injEq] at h
    obtain ⟨hs, hd⟩ := h
    subst hs
    exact ⟨Or.inl ⟨rows, rfl, rfl⟩, hd.symm⟩
  | error e =>
    simp only [hg] at h
    cases hl : o.listingHtml with
    | error e2 =>
      rw [hl] at h
      exact Except.noConfusion h
    | ok doc =>
      simp only [hl] at h
      rw [finishScrape_eq] at h
      simp only [Except.ok.injEq, Prod.mk.injEq] at h
      obtain ⟨hs, hd⟩ := h
      subst hs
      exact ⟨Or.inr ⟨e, doc, rfl, rfl, rfl⟩, hd.symm⟩

theorem enrichFrom_length (f : Nat → Cell → Except String DetailDoc) (idx : Nat)
    (links : List Cell) : (enrichFrom f idx links).length = links.length := by
  induction links generalizing idx with
  | nil => rfl
  | cons u rest ih => simp [enrichFrom, ih]

theorem enrichFrom_get (f : Nat → Cell → Except String DetailDoc) (idx : Nat)
    (links : List Cell) (i : Nat)
    (h1 : i < (enrichFrom f idx links).length) (h2 : i < links.length) :
    (enrichFrom f idx links).get ⟨i, h1⟩ = enrichOne f (idx + i) (links.get ⟨i, h2⟩) := by
  induction links generalizing idx i with
  | nil => exact absurd h2 (by simp)
  | cons u rest ih =>
    cases i with
    | zero => simp [enrichFrom]
    | succ j =>
      have hj1 : j < (enrichFrom f (idx + 1) rest).length := by
        have := h1
        simp only [enrichFrom, List.length_cons] at this
        omega
      have hj2 : j < rest.length := by
        simp only [List.length_cons] at h2
        omega
      have hstep : (enrichFrom f idx (u :: rest)).get ⟨j + 1, h1⟩ =
          (enrichFrom f (idx + 1) rest).get ⟨j, hj1⟩ := by
        simp [enrichFrom]
      rw [hstep, ih (idx + 1) j hj1 hj2]
      have harith : idx + 1 + j = idx + (j + 1) := by omega
      rw [harith]
      congr 1

theorem enrich_length (f : Nat → Cell → Except String DetailDoc) (links : List Cell) :
    (enrich f links).length = links.length :=
  enrichFrom_length f 1 links

theorem enrich_get (f : Nat → Cell → Except String DetailDoc) (links : List Cell) (i : Nat)
    (h1 : i < (enrich f links).length) (h2 : i < links.length) :
    (enrich f links).get ⟨i, h1⟩ = enrichOne f (i + 1) (links.get ⟨i, h2⟩) := by
  unfold enrich
  rw [enrichFrom_get f 1 links i h1 h2]
  have : 1 + i = i + 1 := by omega
  rw [this]

theorem dictGet_enrichOne_indice (f : Nat → Cell → Except String DetailDoc)
    (idx : Nat) (url : Cell) :
    dictGet (enrichOne f idx url) "indice" = some (Cell.val (JVal.s (toString idx))) := by
  unfold enrichOne
  cases f idx url with
  | ok doc => exact dictGet_dictUpd_self _ _ _
  | error e => rfl

theorem dictGet_enrichOne_url (f : Nat → Cell → Except String DetailDoc)
    (idx : Nat) (url : Cell) :
    dictGet (enrichOne f idx url) "detalle_url" = some url := by
  unfold enrichOne
  cases f idx url with
  | ok doc =>
    rw [dictGet_dictUpd_other _ _ _ _ (by decide)]
    exact dictGet_dictUpd_self _ _ _
  | error e => rfl

theorem enrichOne_error (f : Nat → Cell → Except String DetailDoc)
    (idx : Nat) (url : Cell) (e : String) (h : f idx url = .error e) :
    enrichOne f idx url =
      [("detalle_url", url), ("error", Cell.val (JVal.s e)),
       ("indice", Cell.val (JVal.s (toString idx)))] := by
  unfold enrichOne
  rw [h]

/-- A failure at any page of the pagination loop makes the whole loop fail:
no partial accumulation survives. -/
theorem fetchPages_error (f : Nat → Except String GridResponse) (count : Nat) :
    ∀ (start : Nat) (acc : List Row) (q : Nat) (e : String),
      start ≤ q → q < start + count → f q = .error e →
      ∃ e2, fetchPages f start count acc = .error e2 := by
  induction count with
  | zero =>
    intro start acc q e h1 h2 hq
    omega
  | succ n ih =>
    intro start acc q e h1 h2 hq
    cases hf : f start with
    | error e0 => exact ⟨e0, by simp [fetchPages, hf]⟩
    | ok pg =>
      by_cases hq0 : q = start
      · rw [hq0, hf] at hq
        exact Except.noConfusion hq
      · obtain ⟨e2, he2⟩ :=
          ih (start + 1) (acc ++ pg.rows) q e (by omega) (by omega) hq
        exact ⟨e2, by simp [fetchPages, hf, he2]⟩

/-! ## Claim theorems about the orchestrator -/

/-- C1: when any grid-page fetch of the run fails — page 1 itself, or any
page from 2 up to the page count announced by page 1 — the summary the
invocation returns is exactly the parse of the rendered listing page for the
same filters; no rows from earlier successful grid pages survive. -/
theorem grid_failure_falls_back (o : Oracle) (i : Bool) (m : Option Int)
    (p : Nat) (e : String) (doc : HtmlDoc)
    (hp : o.fetchGrid p = .error e)
    (hrange : p = 1 ∨ ∃ r, o.fetchGrid 1 = .ok r ∧ 2 ≤ p ∧ (p : Int) ≤ r.total)
    (hl : o.listingHtml = .ok doc) :
    ∃ dets, scrape_events o i m = .ok (htmlSummary doc, dets) := by
  have hrun : ∃ e2, runGrid o.fetchGrid = .error e2 := by
    rcases hrange with h1 | ⟨r, hr1, hp2, hpt⟩
    · subst h1
      exact ⟨e, by simp [runGrid, hp]⟩
    · obtain ⟨e2, he2⟩ :=
        fetchPages_error o.fetchGrid (r.total - 1).toNat 2 r.rows p e hp2 (by omega) hp
      exact ⟨e2, by simp only [runGrid, hr1]; exact he2⟩
  obtain ⟨e2, hrun⟩ := hrun
  unfold scrape_events
  simp only [hrun, hl]
  rw [finishScrape_eq]
  exact ⟨_, rfl⟩

/-- C1 witness: page 1 announces 2 pages, page 2 times out, and the run falls
back to the parsed listing page. -/
theorem grid_failure_falls_back_witness :
    w1O.fetchGrid 2 = .error "timeout" ∧
      ∃ dets, scrape_events w1O false none = .ok (htmlSummary w1Doc, dets) :=
  ⟨by decide,
   grid_failure_falls_back w1O false none 2 "timeout" w1Doc (by decide)
     (Or.inr ⟨⟨2, [[("EventoId", JVal.s "5")]]⟩, by decide, by decide, by decide⟩)
     (by decide)⟩

/-- C2 counterexample: with `max_details = 0` and one non-empty detail URL in
the summary, `scrape_events` returns zero detail records (`links[:0]` is
empty), where the claim's "0 means no cap" demands one. -/
theorem detail_cap_zero_cex :
    scrape_events c2O true (some 0) = .ok (c2S, []) ∧
      ((detalleColumn c2S).filter cellTruthy).length = 1 ∧ (0 : Nat) ≠ 1 :=
  ⟨by decide, by decide, by decide⟩

/-- C2 as amended: a positive (indeed any non-negative) `max_details` caps
the detail records at that many; an absent `max_details` gives exactly one
record per non-empty `detalle_url`; and `max_details = 0` gives no records
at all — the 0-means-unlimited convention lives in the UI layer, which maps
0 to `None` before invoking `scrape_events`. -/
theorem detail_cap_amended (o : Oracle) (m : Option Int) (s : List SRow) (d : List DRec)
    (h : scrape_events o true m = .ok (s, d)) :
    (∀ k : Int, m = some k → 0 ≤ k → d.length ≤ k.toNat)
    ∧ (m = none → d.length = ((detalleColumn s).filter cellTruthy).length)
    ∧ (m = some 0 → d = []) := by
  have hd := (scrape_events_ok_cases o true m s d h).2
  by_cases hs : s.isEmpty = true
  · have hd2 : d = [] := by rw [hd]; simp [hs]
    subst hd2
    have hsnil : s = [] := List.isEmpty_iff.mp hs
    subst hsnil
    exact ⟨fun k hk hk0 => by simp, fun hm => by simp [detalleColumn], fun hm => rfl⟩
  · have hd2 : d = enrich o.fetchDetail (selectedLinks s m) := by
      rw [hd]; simp [hs]
    have hlen : d.length = (selectedLinks s m).length := by
      rw [hd2, enrich_length]
    refine ⟨?_, ?_, ?_⟩
    · intro k hk hk0
      rw [hlen, hk]
      simp only [selectedLinks, pySliceTo]
      rw [if_pos hk0]
      simp [List.length_take]
    · intro hm
      rw [hlen, hm]
      simp only [selectedLinks]
    · intro hm
      rw [hd2, hm]
      simp [selectedLinks, pySliceTo, enrich, enrichFrom]

/-- C2 witness: with one non-empty URL and no cap, exactly one detail record
is produced. -/
theorem detail_cap_amended_witness :
    scrape_events c2O true none = .ok (c2S, c2D) ∧
      ((∀ k : Int, (none : Option Int) = some k → 0 ≤ k → c2D.length ≤ k.toNat)
        ∧ ((none : Option Int) = none →
            c2D.length = ((detalleColumn c2S).filter cellTruthy).length)
        ∧ ((none : Option Int) = some 0 → c2D = [])) :=
  ⟨by decide, detail_cap_amended c2O none c2S c2D (by decide)⟩

/-- The selected links of an empty summary are empty. -/
theorem selectedLinks_nil (m : Option Int) : selectedLinks [] m = [] := by
  cases m with
  | none => rfl
  | some k =>
    simp only [selectedLinks, pySliceTo, detalleColumn]
    split <;> simp

/-- C3: the detail record at position `i` (0-based here) carries
`indice = str(i + 1)` and the `i`-th selected non-empty `detalle_url`, for
parsed and error records alike, and there is exactly one record per selected
link. -/
theorem detail_records_ordered (o : Oracle) (m : Option Int) (s : List SRow) (d : List DRec)
    (h : scrape_events o true m = .ok (s, d)) :
    d.length = (selectedLinks s m).length ∧
      ∀ i (h1 : i < d.length) (h2 : i < (selectedLinks s m).length),
        dictGet (d.get ⟨i, h1⟩) "indice" = some (Cell.val (JVal.s (toString (i + 1)))) ∧
        dictGet (d.get ⟨i, h1⟩) "detalle_url" = some ((selectedLinks s m).get ⟨i, h2⟩) := by
  have hd := (scrape_events_ok_cases o true m s d h).2
  by_cases hs : s.isEmpty = true
  · have hd2 : d = [] := by rw [hd]; simp [hs]
    subst hd2
    have hsnil : s = [] := List.isEmpty_iff.mp hs
    subst hsnil
    rw [selectedLinks_nil]
    exact ⟨rfl, fun i h1 h2 => absurd h1 (by simp)⟩
  · have hd2 : d = enrich o.fetchDetail (selectedLinks s m) := by rw [hd]; simp [hs]
    subst hd2
    refine ⟨enrich_length _ _, fun i h1 h2 => ?_⟩
    rw [enrich_get _ _ i h1 h2]
    exact ⟨dictGet_enrichOne_indice _ _ _, dictGet_enrichOne_url _ _ _⟩

/-- C3 witness: two links, one parsed record and one error record, both
carrying their 1-based position and link. -/
theorem detail_records_ordered_witness :
    scrape_events w3O true none = .ok (w3S, w3D) ∧
      (w3D.length = (selectedLinks w3S none).length ∧
        ∀ i (h1 : i < w3D.length) (h2 : i < (selectedLinks w3S none).length),
          dictGet (w3D.get ⟨i, h1⟩) "indice" = some (Cell.val (JVal.s (toString (i + 1)))) ∧
          dictGet (w3D.get ⟨i, h1⟩) "detalle_url" = some ((selectedLinks w3S none).get ⟨i, h2⟩)) :=
  ⟨by decide, detail_records_ordered w3O none w3S w3D (by decide)⟩

/-- C9: a failed detail fetch yields exactly the error record for its
position — the link, the failure's description and the 1-based `indice` —
enrichment continues so every selected link still has one record, and the
summary does not depend on the detail fetches at all. -/
theorem detail_failures_recorded (o : Oracle) (m : Option Int) (s : List SRow) (d : List DRec)
    (h : scrape_events o true m = .ok (s, d)) :
    d.length = (selectedLinks s m).length
    ∧ (∀ i (h1 : i < d.length) (h2 : i < (selectedLinks s m).length) (e : String),
        o.fetchDetail (i + 1) ((selectedLinks s m).get ⟨i, h2⟩) = .error e →
        d.get ⟨i, h1⟩ =
          [("detalle_url", (selectedLinks s m).get ⟨i, h2⟩),
           ("error", Cell.val (JVal.s e)),
           ("indice", Cell.val (JVal.s (toString (i + 1))))])
    ∧ (∀ f s2 d2, scrape_events { o with fetchDetail := f } true m = .ok (s2, d2) →
        s2 = s) := by
  have hd := (scrape_events_ok_cases o true m s d h).2
  have hrec : d.length = (selectedLinks s m).length ∧
      ∀ i (h1 : i < d.length) (h2 : i < (selectedLinks s m).length) (e : String),
        o.fetchDetail (i + 1) ((selectedLinks s m).get ⟨i, h2⟩) = .error e →
        d.get ⟨i, h1⟩ =
          [("detalle_url", (selectedLinks s m).get ⟨i, h2⟩),
           ("error", Cell.val (JVal.s e)),
           ("indice", Cell.val (JVal.s (toString (i + 1))))] := by
    by_cases hs : s.isEmpty = true
    · have hd2 : d = [] := by rw [hd]; simp [hs]
      subst hd2
      have hsnil : s = [] := List.isEmpty_iff.mp hs
      subst hsnil
      rw [selectedLinks_nil]
      exact ⟨rfl, fun i h1 h2 => absurd h1 (by simp)⟩
    · have hd2 : d = enrich o.fetchDetail (selectedLinks s m) := by rw [hd]; simp [hs]
      subst hd2
      refine ⟨enrich_length _ _, fun i h1 h2 e he => ?_⟩
      rw [enrich_get _ _ i h1 h2]
      exact enrichOne_error _ _ _ _ he
  refine ⟨hrec.1, hrec.2, ?_⟩
  intro f s2 d2 h2
  have hc1 := (scrape_events_ok_cases o true m s d h).1
  have hc2 := (scrape_events_ok_cases { o with fetchDetail := f } true m s2 d2 h2).1
  have hfg : ({ o with fetchDetail := f } : Oracle).fetchGrid = o.fetchGrid := rfl
  have hfl : ({ o with fetchDetail := f } : Oracle).listingHtml = o.listingHtml := rfl
  rw [hfg, hfl] at hc2
  rcases hc1 with ⟨rows, hg, hs1⟩ | ⟨e, doc, hg, hl, hs1⟩
  · rcases hc2 with ⟨rows2, hg2, hs2⟩ | ⟨e2, doc2, hg2, hl2, hs2⟩
    · rw [hg] at hg2
      rw [hs2, ← Except.ok.inj hg2, ← hs1]
    · rw [hg] at hg2
      exact Except.noConfusion hg2
  · rcases hc2 with ⟨rows2, hg2, hs2⟩ | ⟨e2, doc2, hg2, hl2, hs2⟩
    · rw [hg] at hg2
      exact Except.noConfusion hg2
    · rw [hl] at hl2
      rw [hs2, ← Except.ok.inj hl2, ← hs1]

/-- C9 witness: the second of two detail fetches fails and the run still
returns a record for each link, the failing one being the error record. -/
theorem detail_failures_recorded_witness :
    scrape_events w3O true none = .ok (w3S, w3D) ∧
      (w3D.length = (selectedLinks w3S none).length
        ∧ (∀ i (h1 : i < w3D.length) (h2 : i < (selectedLinks w3S none).length) (e : String),
            w3O.fetchDetail (i + 1) ((selectedLinks w3S none).get ⟨i, h2⟩) = .error e →
            w3D.get ⟨i, h1⟩ =
              [("detalle_url", (selectedLinks w3S none).get ⟨i, h2⟩),
               ("error", Cell.val (JVal.s e)),
               ("indice", Cell.val (JVal.s (toString (i + 1))))])
        ∧ (∀ f s2 d2, scrape_events { w3O with fetchDetail := f } true none = .ok (s2, d2) →
            s2 = w3S)) :=
  ⟨by decide, detail_failures_recorded w3O none w3S w3D (by decide)⟩

/-! ## Grid-summary cell lemmas for the detail-URL normalization -/

theorem not_true_of_eq_false {b : Bool} (h : b = false) : ¬ b = true := by
  rw [h]
  exact Bool.false_ne_true

theorem dictGet_mapCols (cols : List String) (f : String → Cell) (c : String) (h : c ∈ cols) :
    dictGet (cols.map (fun c2 => (c2, f c2))) c = some (f c) := by
  induction cols with
  | nil => cases h
  | cons c0 cs ih =>
    by_cases hc : (c0 == c) = true
    · have he : c0 = c := beq_iff_eq.mp hc
      subst he
      unfold dictGet
      rw [List.map_cons, List.find?_cons]
      simp
    · have hc2 : (c0 == c) = false := by simpa using hc
      have hmem : c ∈ cs := by
        rcases List.mem_cons.mp h with he | hm
        · exact absurd he.symm (by simpa using hc2)
        · exact hm
      unfold dictGet
      rw [List.map_cons, List.find?_cons]
      simp only [hc2]
      exact ih hmem

theorem materialize_length (rows : List Row) : (materialize rows).length = rows.length := by
  unfold materialize
  simp

/-- `gridSummary` written as a plain conditional over the materialized
DataFrame (definitional restatement used for rewriting). -/
theorem gridSummary_eq_map (rows : List Row) :
    gridSummary rows =
      (if ¬ rows.isEmpty ∧ (dfColumns rows).contains "EventoId" then
        (materialize rows).map (fun r =>
          dictUpd r "detalle_url"
            (Cell.val (JVal.s (build_detail_url ((dictGet r "EventoId").getD Cell.nan)))))
      else if ¬ (dfColumns rows).contains "detalle_url" then
        (materialize rows).map (fun r => dictUpd r "detalle_url" (Cell.val (JVal.s "")))
      else materialize rows) := rfl

theorem gridSummary_length (rows : List Row) :
    (gridSummary rows).length = rows.length := by
  rw [gridSummary_eq_map]
  split_ifs <;> simp [materialize]

/-- The `detalle_url` cell of row `j` of the grid summary: synthesized from
the row's `EventoId` cell whenever the column exists (also over `nan` and
null cells), else the row's own `detalle_url` cell when that column exists,
else the injected empty string. -/
theorem gridSummary_dictGet (rows : List Row) (j : Nat)
    (h1 : j < (gridSummary rows).length) (h2 : j < rows.length) :
    dictGet ((gridSummary rows).get ⟨j, h1⟩) "detalle_url" =
      (if (dfColumns rows).contains "EventoId" then
        some (Cell.val (JVal.s (build_detail_url (dfCell (rows.get ⟨j, h2⟩) "EventoId"))))
      else if (dfColumns rows).contains "detalle_url" then
        some (dfCell (rows.get ⟨j, h2⟩) "detalle_url")
      else some (Cell.val (JVal.s ""))) := by
  have hne : rows.isEmpty = false := by
    cases rows with
    | nil => simp at h2
    | cons a l => simp
  simp only [List.get_eq_getElem]
  by_cases hE : (dfColumns rows).contains "EventoId" = true
  · have hcond : (¬ rows.isEmpty = true ∧ (dfColumns rows).contains "EventoId" = true) :=
      ⟨not_true_of_eq_false hne, hE⟩
    rw [if_pos hE]
    simp only [gridSummary_eq_map, if_pos hcond, materialize, List.getElem_map]
    rw [dictGet_dictUpd_self]
    rw [dictGet_mapCols _ _ _ (List.elem_iff.mp hE)]
    rfl
  · have hE2 : (dfColumns rows).contains "EventoId" = false := by simpa using hE
    have hcond : ¬ (¬ rows.isEmpty = true ∧ (dfColumns rows).contains "EventoId" = true) :=
      fun hc => hE hc.2
    rw [if_neg hE]
    by_cases hD : (dfColumns rows).contains "detalle_url" = true
    · rw [if_pos hD]
      have hD2 : ¬ ¬ (dfColumns rows).contains "detalle_url" = true := not_not_intro hD
      simp only [gridSummary_eq_map, if_neg hcond, if_neg hD2, materialize, List.getElem_map]
      rw [dictGet_mapCols _ _ _ (List.elem_iff.mp hD)]
    · have hD2 : (dfColumns rows).contains "detalle_url" = false := by simpa using hD
      rw [if_neg hD]
      simp only [gridSummary_eq_map, if_neg hcond, if_pos hD, materialize, List.getElem_map]
      rw [dictGet_dictUpd_self]

/-- C5 counterexample: the second grid row has no `EventoId` but carries
`detalle_url = "http://x"`; because another row does carry `EventoId`, the
whole column is overwritten and this row's URL becomes the template applied
to the missing-value marker — not its own URL as the claim states. -/
theorem grid_detail_url_cex :
    scrape_events c5O false none = .ok (c5S, []) ∧
      dictGet (c5Rows.get ⟨1, by decide⟩) "EventoId" = none ∧
      dictGet (c5Rows.get ⟨1, by decide⟩) "detalle_url" = some (JVal.s "http://x") ∧
      dictGet (c5S.get ⟨1, by decide⟩) "detalle_url" = some (Cell.val (JVal.s urlNan)) ∧
      ¬ dictGet (c5S.get ⟨1, by decide⟩) "detalle_url" = some (Cell.val (JVal.s "http://x")) :=
  ⟨by decide, by decide, by decide, by decide, by decide⟩

/-- C5 as amended: when the grid path succeeds, if any row carries an
`EventoId` then every row's `detalle_url` is synthesized by the fixed
template from that row's `EventoId` cell — a row that carries the identifier
gets the template applied to it, while a row missing it gets the template
applied to the missing-value marker (and a null identifier the empty
string); rows keep whatever `detalle_url` they already have only when no row
carries `EventoId`, with the empty string injected when there is no
`detalle_url` column either. -/
theorem grid_detail_url_amended (o : Oracle) (i : Bool) (m : Option Int)
    (rows : List Row) (s : List SRow) (d : List DRec)
    (hg : runGrid o.fetchGrid = .ok rows)
    (hs : scrape_events o i m = .ok (s, d)) :
    s = gridSummary rows ∧ s.length = rows.length ∧
      ∀ j (h1 : j < s.length) (h2 : j < rows.length),
        ((dfColumns rows).contains "EventoId" = true →
          dictGet (s.get ⟨j, h1⟩) "detalle_url" =
            some (Cell.val (JVal.s (build_detail_url (dfCell (rows.get ⟨j, h2⟩) "EventoId")))))
        ∧ ((dfColumns rows).contains "EventoId" = false →
            ((dfColumns rows).contains "detalle_url" = true →
              dictGet (s.get ⟨j, h1⟩) "detalle_url" =
                some (dfCell (rows.get ⟨j, h2⟩) "detalle_url"))
            ∧ ((dfColumns rows).contains "detalle_url" = false →
              dictGet (s.get ⟨j, h1⟩) "detalle_url" = some (Cell.val (JVal.s "")))) := by
  have hcase := (scrape_events_ok_cases o i m s d hs).1
  have hseq : s = gridSummary rows := by
    rcases hcase with ⟨rows2, hg2, hs2⟩ | ⟨e, doc, hg2, _, _⟩
    · rw [hg] at hg2
      rw [hs2, ← Except.ok.inj hg2]
    · rw [hg] at hg2
      exact Except.noConfusion hg2
  subst hseq
  refine ⟨rfl, gridSummary_length rows, ?_⟩
  intro j h1 h2
  have hd := gridSummary_dictGet rows j h1 h2
  refine ⟨fun hE => ?_, fun hE => ⟨fun hD => ?_, fun hD => ?_⟩⟩
  · rw [hd, if_pos hE]
  · rw [hd, if_neg (not_true_of_eq_false hE), if_pos hD]
  · rw [hd, if_neg (not_true_of_eq_false hE), if_neg (not_true_of_eq_false hD)]

/-- C5 witness: the amended statement applied to the mixed two-row grid. -/
theorem grid_detail_url_amended_witness :
    runGrid c5O.fetchGrid = .ok c5Rows ∧
      (c5S = gridSummary c5Rows ∧ c5S.length = c5Rows.length ∧
        ∀ j (h1 : j < c5S.length) (h2 : j < c5Rows.length),
          ((dfColumns c5Rows).contains "EventoId" = true →
            dictGet (c5S.get ⟨j, h1⟩) "detalle_url" =
              some (Cell.val (JVal.s (build_detail_url
                (dfCell (c5Rows.get ⟨j, h2⟩) "EventoId")))))
          ∧ ((dfColumns c5Rows).contains "EventoId" = false →
              ((dfColumns c5Rows).contains "detalle_url" = true →
                dictGet (c5S.get ⟨j, h1⟩) "detalle_url" =
                  some (dfCell (c5Rows.get ⟨j, h2⟩) "detalle_url"))
              ∧ ((dfColumns c5Rows).contains "detalle_url" = false →
                dictGet (c5S.get ⟨j, h1⟩) "detalle_url" =
                  some (Cell.val (JVal.s ""))))) :=
  ⟨by decide,
   grid_detail_url_amended c5O false none c5Rows c5S [] (by decide) (by decide)⟩

end Pulep
